import Mathlib

/-!
Verification of the AudioMerge repository's core behaviours: the PCM peak
envelope builder, the transport synchronizer (seek / frame stepping / trim
points / per-track drift correction), the export command composer (trim
timestamps and the volume/amix/dynaudnorm filter graph), the headroom-based
audition volume mapping, and the ffmpeg progress time parser.

Python integer millisecond values are modelled as `Int` (they can go negative
through `step_back`), sample values as `Int` (16-bit signed on real input,
stated as a hypothesis where needed), and exact real quantities as `Rat` or
`Real` (for the `10 ** (db/20)` gain curve).
-/

namespace AudioMerge

/-! ## Transport / timeline state (src/main.py, `MainTimeline` and `MainWindow`) -/

/-- Timeline state owned by `MainTimeline` (src/main.py lines 42-82):
`duration`, `position`, `in_point`, `out_point`, all in milliseconds. -/
structure Timeline where
  duration : Int
  position : Int
  in_point : Int
  out_point : Int
  deriving Repr, DecidableEq

/-- `MainTimeline.set_in_point` (src/main.py lines 74-77):
`self.in_point = self.position; if self.in_point > self.out_point:
self.out_point = self.duration`. -/
def set_in_point (t : Timeline) : Timeline :=
  if t.out_point < t.position then
    { t with in_point := t.position, out_point := t.duration }
  else
    { t with in_point := t.position }

/-- `MainTimeline.set_out_point` (src/main.py lines 79-81):
`self.out_point = self.position; if self.out_point < self.in_point:
self.in_point = 0`. -/
def set_out_point (t : Timeline) : Timeline :=
  if t.position < t.in_point then
    { t with out_point := t.position, in_point := 0 }
  else
    { t with out_point := t.position }

/-- `AudioTrackWidget.sync_position` (src/main.py lines 283-286): given the
track player's current position and the master position `ms`, compute
`diff = abs(self.player.position() - ms)` and call `setPosition(ms)` only when
`diff > 50`.  Result: the track player's position afterwards, paired with
whether a forced seek was issued. -/
def sync_position (playerPos ms : Int) : Int × Bool :=
  if 50 < |playerPos - ms| then (ms, true) else (playerPos, false)

/-- `MainWindow.seek_all` (src/main.py lines 775-777): sets the master player
position to `ms` and then calls `t.player.setPosition(ms)` on every track,
bypassing `sync_position`'s drift tolerance and performing no clamping.
Input: the list of current track-player positions; output: the master
position and the track-player positions afterwards. -/
def seek_all (ms : Int) (trackPositions : List Int) : Int × List Int :=
  (ms, trackPositions.map fun _ => ms)

/-- Master transport playing/position state used by the frame-stepping
buttons. -/
structure Transport where
  playing : Bool
  position : Int
  deriving Repr, DecidableEq

/-- `MainWindow.step_fwd` (src/main.py lines 779-783): pause the master player
and every track, then `seek_all(position + int(1000/fps))`.  Python's `int()`
truncates; `1000/self.fps` is positive, so it is the floor. -/
def step_fwd (fps : ℚ) (s : Transport) : Transport :=
  { playing := false, position := s.position + ⌊(1000 : ℚ) / fps⌋ }

/-- `MainWindow.step_back` (src/main.py lines 785-789): pause the master player
and every track, then `seek_all(position - int(1000/fps))`. -/
def step_back (fps : ℚ) (s : Transport) : Transport :=
  { playing := false, position := s.position - ⌊(1000 : ℚ) / fps⌋ }

end AudioMerge

namespace AudioMerge

/-! ## Theorems for claims C5-C8 -/

/-- C8. Sync tolerance: `sync_position` issues a forced seek of the track to
`P` if and only if `|P' - P| > 50`; otherwise the track's playback position is
left untouched.  When it does seek, the track lands exactly on `P`. -/
theorem C8_sync_tolerance (playerPos ms : Int) :
    ((sync_position playerPos ms).2 = true ↔ 50 < |playerPos - ms|) ∧
    ((sync_position playerPos ms).2 = true → (sync_position playerPos ms).1 = ms) ∧
    ((sync_position playerPos ms).2 = false → (sync_position playerPos ms).1 = playerPos) := by
  unfold sync_position
  by_cases h : 50 < |playerPos - ms| <;> simp [h]

/-- Witness for C8 at a concrete drift of 20 ms (within tolerance: no seek)
and the seek branch at drift 100 ms. -/
theorem C8_sync_tolerance_witness :
    (sync_position 120 100).1 = 120 ∧ (sync_position 300 100).1 = 100 := by
  refine ⟨(C8_sync_tolerance 120 100).2.2 ?_, (C8_sync_tolerance 300 100).2.1 ?_⟩ <;> decide

/-- C5 counterexample: the claim says `seek(ms)` clamps `ms` to
`[0, duration_ms]`.  `seek_all` performs no clamping: at the requested seek
position `-33` (reachable via `step_back` near position 0) with duration
10000, the master position is set to `-33`, not to the clamped value `0`. -/
theorem C5_counterexample :
    (seek_all (-33) [0, 0]).1 = -33 ∧ (seek_all (-33) [0, 0]).1 ≠ max 0 (min (-33) 10000) := by
  decide

/-- C5 (amended). `seek_all` sets the master position to the requested `ms`
unclamped, and unconditionally forces every track to `ms` — even a track whose
playback position is within the 50 ms tolerance (where `sync_position` would
not seek) is seeked. -/
theorem C5_seek_unconditional (ms : Int) (ps : List Int) :
    (seek_all ms ps).1 = ms ∧
    (seek_all ms ps).2.length = ps.length ∧
    (∀ q ∈ (seek_all ms ps).2, q = ms) ∧
    (∀ p ∈ ps, ¬ 50 < |p - ms| → (sync_position p ms).2 = false ∧ (ms, true).1 = ms) := by
  refine ⟨rfl, by simp [seek_all], ?_, ?_⟩
  · intro q hq
    simp only [seek_all, List.mem_map] at hq
    obtain ⟨p, _, hp⟩ := hq
    exact hp.symm
  · intro p _ hle
    exact ⟨by simp [sync_position, hle], rfl⟩

/-- Witness for C5: a track sitting at 120 ms, master seek to 100 ms (drift 20,
inside the tolerance) — `seek_all` still forces it to 100. -/
theorem C5_seek_unconditional_witness :
    (seek_all 100 [120]).1 = 100 ∧ (∀ q ∈ (seek_all 100 [120]).2, q = 100) :=
  ⟨(C5_seek_unconditional 100 [120]).1, (C5_seek_unconditional 100 [120]).2.2.1⟩

/-- C6 counterexample: the claim says stepping seeks by `round(1000/fps)` ms.
At `fps = 24` and position 0, `step_fwd` moves to `int(1000/24) = 41`, but
`round(1000/24) = round(41.666...) = 42`. -/
theorem C6_counterexample :
    (step_fwd 24 ⟨true, 0⟩).position = 41 ∧
    (step_fwd 24 ⟨true, 0⟩).position ≠ round ((1000 : ℚ) / 24) := by
  constructor
  · show (0 : Int) + ⌊(1000 : ℚ) / 24⌋ = 41
    norm_num
  · show (0 : Int) + ⌊(1000 : ℚ) / 24⌋ ≠ round ((1000 : ℚ) / 24)
    rw [round_eq]
    norm_num

/-- C6 (amended). For every frame rate `fps > 0` and position `p`, `step_fwd`
(resp. `step_back`) first pauses playback and then seeks to
`p + ⌊1000/fps⌋` ms (resp. `p - ⌊1000/fps⌋`): the step size is the
truncation of `1000/fps`, characterized by
`1000/fps - 1 < step ≤ 1000/fps`, not the rounding. -/
theorem C6_step_truncates (fps : ℚ) (p : Int) (b b' : Bool) (hfps : 0 < fps) :
    (step_fwd fps ⟨b, p⟩).playing = false ∧
    (step_back fps ⟨b', p⟩).playing = false ∧
    (((step_fwd fps ⟨b, p⟩).position - p : ℚ) ≤ 1000 / fps ∧
      (1000 : ℚ) / fps - 1 < ((step_fwd fps ⟨b, p⟩).position - p : ℚ)) ∧
    (step_back fps ⟨b', p⟩).position - p = -((step_fwd fps ⟨b, p⟩).position - p) := by
  refine ⟨rfl, rfl, ⟨?_, ?_⟩, ?_⟩
  · show ((↑(p + ⌊(1000 : ℚ) / fps⌋) : ℚ) - ↑p ≤ 1000 / fps)
    push_cast
    linarith [Int.floor_le ((1000 : ℚ) / fps)]
  · show ((1000 : ℚ) / fps - 1 < (↑(p + ⌊(1000 : ℚ) / fps⌋) : ℚ) - ↑p)
    push_cast
    linarith [Int.sub_one_lt_floor ((1000 : ℚ) / fps)]
  · show p - ⌊(1000 : ℚ) / fps⌋ - p = -(p + ⌊(1000 : ℚ) / fps⌋ - p)
    ring

/-- Witness for C6 at `fps = 30`, position 500: both steps pause, and the step
size `⌊1000/30⌋ = 33` satisfies the truncation bounds. -/
theorem C6_step_truncates_witness :
    (step_fwd 30 ⟨true, 500⟩).playing = false ∧
    ((step_fwd 30 ⟨true, 500⟩).position - 500 : ℚ) ≤ 1000 / 30 :=
  ⟨(C6_step_truncates 30 500 true true (by norm_num)).1,
   (C6_step_truncates 30 500 true true (by norm_num)).2.2.1.1⟩

/-- C7. Trim-point reset policy: `set_in_point` sets `in_point = position` and
resets `out_point` to `duration` exactly when the new in-point would exceed the
out-point; `set_out_point` sets `out_point = position` and resets `in_point` to
0 exactly on inversion.  Consequently, after `set_in_point` followed by
`set_out_point` at a position `p2` in `[0, duration]` before the in-point, the
range satisfies `in_point ≤ out_point`. -/
theorem C7_trim_reset_policy (t : Timeline) (p2 : Int)
    (h0 : 0 ≤ p2) (hd : p2 ≤ t.duration) :
    (set_in_point t).in_point = t.position ∧
    (set_in_point t).out_point =
      (if t.out_point < t.position then t.duration else t.out_point) ∧
    (set_out_point t).out_point = t.position ∧
    (set_out_point t).in_point = (if t.position < t.in_point then 0 else t.in_point) ∧
    (p2 < (set_in_point t).in_point →
      (set_out_point { set_in_point t with position := p2 }).in_point ≤
        (set_out_point { set_in_point t with position := p2 }).out_point) := by
  refine ⟨?_, ?_, ?_, ?_, ?_⟩
  · unfold set_in_point; split <;> rfl
  · unfold set_in_point; split <;> simp_all
  · unfold set_out_point; split <;> rfl
  · unfold set_out_point; split <;> simp_all
  · intro hp2
    have hin : ({ set_in_point t with position := p2 } : Timeline).in_point =
        (set_in_point t).in_point := rfl
    unfold set_out_point
    rw [hin]
    simp only [hp2, if_pos]
    exact h0

/-- Witness for C7: duration 10000, position 5000; `set_in_point` puts the
in-point at 5000, then `set_out_point` at position 2000 (< 5000) resets the
in-point to 0, giving the non-inverted range `0 ≤ 2000`. -/
theorem C7_trim_reset_policy_witness :
    (set_out_point { set_in_point ⟨10000, 5000, 0, 10000⟩ with position := 2000 }).in_point ≤
      (set_out_point { set_in_point ⟨10000, 5000, 0, 10000⟩ with position := 2000 }).out_point :=
  (C7_trim_reset_policy ⟨10000, 5000, 0, 10000⟩ 2000 (by decide) (by decide)).2.2.2.2
    (by decide)

/-! ## PCM peak envelope builder
(`WaveformWidget.load_audio_data`, src/mixer.py lines 192-214, and the
identical `WaveformWidget.load_data`, src/main.py lines 142-162.)

The Python loop is
```
target_width = 2000
step = max(1, count // target_width)
for i in range(0, count, step):
    chunk = raw_samples[i:i+step]
    if chunk:
        val = max(abs(x) for x in chunk) / 32768.0
        self.samples.append(val)
```
The loop indices are `i = k * step` for `k < ceil(count / step)`; for each such
index the slice `raw_samples[i:i+step]` is non-empty (so the `if chunk:` guard
never skips), and it is `(samples.drop (k*step)).take step`.  The embedding
maps over exactly those chunk indices. -/

/-- `step = max(1, count // target_width)`. -/
def envStep (count target : ℕ) : ℕ := max 1 (count / target)

/-- Number of loop iterations of `range(0, count, step)`, i.e.
`ceil(count / step)`. -/
def numChunks (count step : ℕ) : ℕ := (count + step - 1) / step

/-- The slice `raw_samples[k*step : k*step + step]`. -/
def chunk (samples : List Int) (step k : ℕ) : List Int :=
  (samples.drop (k * step)).take step

/-- `max(abs(x) for x in chunk) / 32768.0`, as an exact rational.  For the
empty list this yields `0/32768 = 0` (the Python code never evaluates it on an
empty chunk). -/
def chunkVal (c : List Int) : ℚ :=
  (((c.map Int.natAbs).foldr max 0 : ℕ) : ℚ) / 32768

/-- The peak envelope produced by `load_audio_data` from the decoded 16-bit
samples, at target width `target` (the source fixes `target = 2000`). -/
def load_audio_data (samples : List Int) (target : ℕ) : List ℚ :=
  let count := samples.length
  let step := envStep count target
  (List.range (numChunks count step)).map fun k => chunkVal (chunk samples step k)

/-- For nonempty `l : List ℕ`, `foldr max 0` is an upper bound iff `b` bounds
every element. -/
theorem foldr_max_le {l : List ℕ} {b : ℕ} (h : ∀ a ∈ l, a ≤ b) :
    l.foldr max 0 ≤ b := by
  induction l with
  | nil => exact Nat.zero_le b
  | cons x xs ih =>
      simp only [List.foldr_cons]
      exact max_le (h x (by simp)) (ih fun a ha => h a (by simp [ha]))

/-- Every member of `l : List ℕ` is at most `foldr max 0 l`. -/
theorem le_foldr_max {l : List ℕ} {a : ℕ} (h : a ∈ l) : a ≤ l.foldr max 0 := by
  induction l with
  | nil => cases h
  | cons x xs ih =>
      rcases List.mem_cons.mp h with rfl | h'
      · exact le_max_left _ _
      · exact le_trans (ih h') (le_max_right _ _)

theorem chunkVal_nonneg (c : List Int) : 0 ≤ chunkVal c := by
  unfold chunkVal; positivity

theorem chunkVal_le_one {c : List Int} (h : ∀ x ∈ c, x.natAbs ≤ 32768) :
    chunkVal c ≤ 1 := by
  unfold chunkVal
  rw [div_le_one (by norm_num)]
  have : (c.map Int.natAbs).foldr max 0 ≤ 32768 := by
    refine foldr_max_le fun a ha => ?_
    obtain ⟨x, hx, rfl⟩ := List.mem_map.mp ha
    exact h x hx
  exact_mod_cast this

theorem mem_of_mem_chunk {samples : List Int} {step k : ℕ} {x : Int}
    (h : x ∈ chunk samples step k) : x ∈ samples :=
  List.mem_of_mem_drop (List.mem_of_mem_take h)

theorem load_audio_data_length (samples : List Int) (target : ℕ) :
    (load_audio_data samples target).length =
      numChunks samples.length (envStep samples.length target) := by
  simp [load_audio_data]

theorem lt_numChunks_iff {count step k : ℕ} (h : 0 < step) :
    k < numChunks count step ↔ k * step < count := by
  unfold numChunks
  rw [Nat.lt_iff_add_one_le, Nat.le_div_iff_mul_le h, add_one_mul]
  omega

/-- Entry `k` of the envelope is the peak value of chunk `k`. -/
theorem load_audio_data_get? (samples : List Int) (target k : ℕ)
    (hk : k * envStep samples.length target < samples.length) :
    (load_audio_data samples target).get? k =
      some (chunkVal (chunk samples (envStep samples.length target) k)) := by
  unfold load_audio_data
  rw [List.get?_map, List.get?_range ((lt_numChunks_iff (le_max_left 1 _)).mpr hk)]
  rfl

/-- C1 counterexample: a buffer of 2001 samples gives `step = max(1, 2001
// 2000) = 1` and an envelope of 2001 points — strictly more than the target
width 2000, refuting `len(envelope) <= target_width`. -/
theorem C1_counterexample :
    (load_audio_data (List.replicate 2001 (0 : Int)) 2000).length = 2001 ∧
    ¬ (load_audio_data (List.replicate 2001 (0 : Int)) 2000).length ≤ 2000 := by
  have h : (load_audio_data (List.replicate 2001 (0 : Int)) 2000).length = 2001 := by
    rw [load_audio_data_length]
    norm_num [envStep, numChunks]
  exact ⟨h, by omega⟩

/-- C1 (amended). Envelope bound: for every 16-bit input PCM buffer and target
width 2000, the envelope has length at most `2*2000 - 1 = 3999` (length can
exceed the target width — up to one point per sample below 4000 samples — but
never reaches twice the target), and every envelope value lies in `[0, 1]`. -/
theorem C1_envelope_bound (samples : List Int)
    (h16 : ∀ x ∈ samples, -32768 ≤ x ∧ x ≤ 32767) :
    (load_audio_data samples 2000).length ≤ 3999 ∧
    ∀ v ∈ load_audio_data samples 2000, 0 ≤ v ∧ v ≤ 1 := by
  constructor
  · rw [load_audio_data_length]
    unfold envStep numChunks
    by_cases hN : samples.length < 2000
    · rw [Nat.div_eq_of_lt hN]
      norm_num
      omega
    · have h1 : 1 ≤ samples.length / 2000 :=
        (Nat.one_le_div_iff (by norm_num)).mpr (le_of_not_lt hN)
      rw [max_eq_right h1]
      have hmod := Nat.div_add_mod samples.length 2000
      have hlt : samples.length % 2000 < 2000 := Nat.mod_lt _ (by norm_num)
      have h4 : (samples.length + samples.length / 2000 - 1) / (samples.length / 2000)
          < 4000 := by
        rw [Nat.div_lt_iff_lt_mul h1]
        omega
      omega
  · intro v hv
    simp only [load_audio_data, List.mem_map, List.mem_range] at hv
    obtain ⟨k, _, rfl⟩ := hv
    refine ⟨chunkVal_nonneg _, chunkVal_le_one fun x hx => ?_⟩
    have := h16 x (mem_of_mem_chunk hx)
    omega

/-- Witness for C1 at a concrete 2-sample 16-bit buffer. -/
theorem C1_envelope_bound_witness :
    (load_audio_data [100, -32768] 2000).length ≤ 3999 ∧
    ∀ v ∈ load_audio_data [100, -32768] 2000, 0 ≤ v ∧ v ≤ 1 :=
  C1_envelope_bound [100, -32768] (by decide)

/-- Computes the peak of a chunk whose entries are all `0` except for
occurrences of `32767`. -/
theorem chunkVal_peak {c : List Int} (hmem : (32767 : Int) ∈ c)
    (hall : ∀ x ∈ c, x = 0 ∨ x = 32767) : chunkVal c = 32767 / 32768 := by
  unfold chunkVal
  have hfold : (c.map Int.natAbs).foldr max 0 = 32767 := by
    refine le_antisymm (foldr_max_le fun a ha => ?_) (le_foldr_max ?_)
    · obtain ⟨x, hx, rfl⟩ := List.mem_map.mp ha
      rcases hall x hx with rfl | rfl <;> simp
    · exact List.mem_map.mpr ⟨32767, hmem, rfl⟩
  rw [hfold]
  norm_num

/-- C9 counterexample: the buffer `32767 :: (3999 zeros)` has 4000 samples, so
`step = 2` and its first chunk is `[32767, 0]` (one full-scale sample, the
other zero).  Its envelope value is `32767/32768`, which is not `1.0` (it is
`2^-15` short, a quantization gap far larger than floating rounding). -/
theorem C9_counterexample :
    (load_audio_data ((32767 : Int) :: List.replicate 3999 0) 2000).get? 0 =
      some (32767 / 32768 : ℚ) ∧
    ((32767 : ℚ) / 32768) ≠ 1 := by
  constructor
  · have hlen : ((32767 : Int) :: List.replicate 3999 0).length = 4000 := by
      rw [List.length_cons, List.length_replicate]
    have hstep : envStep 4000 2000 = 2 := by norm_num [envStep]
    rw [load_audio_data_get? _ _ _ (by rw [hlen]; norm_num [envStep])]
    rw [hlen, hstep]
    have hc : chunk ((32767 : Int) :: List.replicate 3999 0) 2 0 = [32767, 0] := by
      decide
    rw [hc]
    rw [chunkVal_peak (by decide) (by decide)]
  · norm_num

/-- C9 (amended). Peak-hold property: for every PCM buffer in which some chunk
contains a full-scale sample `32767` and all other samples of that chunk are
zero, the envelope value produced for that chunk equals `32767/32768` (the
normalized peak, `2^-15` below `1.0`), not an average of the chunk. -/
theorem C9_peak_hold (samples : List Int) (k : ℕ)
    (hmem : (32767 : Int) ∈ chunk samples (envStep samples.length 2000) k)
    (hall : ∀ x ∈ chunk samples (envStep samples.length 2000) k, x = 0 ∨ x = 32767) :
    (load_audio_data samples 2000).get? k = some (32767 / 32768 : ℚ) := by
  have hne : chunk samples (envStep samples.length 2000) k ≠ [] := by
    intro h; rw [h] at hmem; cases hmem
  have hk : k * envStep samples.length 2000 < samples.length := by
    by_contra hge
    have : samples.drop (k * envStep samples.length 2000) = [] :=
      List.drop_eq_nil_of_le (le_of_not_lt hge)
    exact hne (by simp [chunk, this])
  rw [load_audio_data_get? _ _ _ hk]
  rw [chunkVal_peak hmem hall]

/-- Witness for C9 at the buffer `[32767]`: its single chunk is `[32767]` and
the envelope entry is `32767/32768`. -/
theorem C9_peak_hold_witness :
    (load_audio_data [(32767 : Int)] 2000).get? 0 = some (32767 / 32768 : ℚ) :=
  C9_peak_hold [32767] 0 (by decide) (by decide)

/-! ## Trim timestamp formatting (`format_time`, src/utils.py lines 18-22)

```
seconds = (ms / 1000) % 60
minutes = (ms / (1000 * 60)) % 60
return f"{int(minutes):02d}:{seconds:05.2f}"
```
For a nonnegative integer `ms`, `int((ms / 60000) % 60)` is `(ms / 60000) % 60`
in integer arithmetic, and `%05.2f` renders `(ms % 60000) / 1000` seconds with
two decimal digits, zero-padded to width 5.  The decimal rounding is modelled
half-up on the exact value; Python formats the nearest binary double, which
agrees on every input whose centisecond value is not an exact half (in
particular on all multiples of 10 ms, which covers the whole-millisecond trim
points used by the claims). -/

/-- Zero-pad a number below 100 to two digits (`%02d`). -/
def pad2 (n : ℕ) : String := if n < 10 then "0" ++ toString n else toString n

/-- `format_time` (src/utils.py lines 18-22): milliseconds to `MM:SS.ff`. -/
def format_time (ms : ℕ) : String :=
  let minutes := (ms / 60000) % 60
  let centis := ((ms % 60000) + 5) / 10
  pad2 minutes ++ ":" ++ pad2 (centis / 100) ++ "." ++ pad2 (centis % 100)

/-! ## Export command composition (`MainWindow.export`, src/main.py lines
801-850; the filter-graph construction also appears verbatim in
`MainWindow.start_export`, src/mixer.py lines 594-610)

```
cmd = [FFMPEG_BIN, '-y', '-ss', ss, '-to', to, '-i', self.video_path]
if precise: cmd += ['-map', '0:v', '-c:v', 'libx264', '-crf', '18', '-preset', 'fast']
else:       cmd += ['-map', '0:v', '-c:v', 'copy']
for i, t in enumerate(active):
    filter_parts.append(f"[0:a:{t.index}]volume={db}dB[a{i}]")
    mix_ins += f"[a{i}]"
complex_filter = f"{';'.join(filter_parts)};{mix_ins}amix=inputs={len(active)}[outa];[outa]dynaudnorm[a_final]"
cmd += ['-filter_complex', complex_filter, '-map', '[a_final]', '-c:a', 'aac', '-b:a', '192k', out_path]
```
Gains are modelled as integers (both the slider and the 0-decimal spinbox
quantize to whole dB), rendered as Python renders an `int`. -/

/-- One audio track as the export composer sees it: ordinal among audio
streams, gain in dB, and checkbox state. -/
structure Track where
  index : ℕ
  db : Int
  active : Bool
  deriving Repr, DecidableEq

/-- The per-track labeled gain filter `[0:a:{t.index}]volume={db}dB[a{i}]`. -/
def volumeFilter (i : ℕ) (t : Track) : String :=
  "[0:a:" ++ toString t.index ++ "]volume=" ++ toString t.db ++ "dB[a" ++ toString i ++ "]"

/-- `active = [t for t in self.tracks if t.checkbox.isChecked()]`. -/
def activeTracks (ts : List Track) : List Track := ts.filter (·.active)

/-- The `for i, t in enumerate(active)` loop accumulating `filter_parts` and
`mix_ins`. -/
def buildFilterLoop : List Track → ℕ → List String × String → List String × String
  | [], _, acc => acc
  | t :: rest, i, (parts, mix) =>
      buildFilterLoop rest (i + 1)
        (parts ++ [volumeFilter i t], mix ++ "[a" ++ toString i ++ "]")

/-- The `complex_filter` string composed by `export`. -/
def complexFilter (ts : List Track) : String :=
  let pm := buildFilterLoop (activeTracks ts) 0 ([], "")
  String.intercalate ";" pm.1 ++ ";" ++ pm.2 ++
    "amix=inputs=" ++ toString (activeTracks ts).length ++
    "[outa];[outa]dynaudnorm[a_final]"

/-- The full argument list composed by `MainWindow.export`
(src/main.py lines 830-845). -/
def buildExportCmd (ffmpeg videoPath outPath : String) (precise : Bool)
    (startMs endMs : ℕ) (ts : List Track) : List String :=
  [ffmpeg, "-y", "-ss", format_time startMs, "-to", format_time endMs, "-i", videoPath] ++
  (if precise then ["-map", "0:v", "-c:v", "libx264", "-crf", "18", "-preset", "fast"]
   else ["-map", "0:v", "-c:v", "copy"]) ++
  ["-filter_complex", complexFilter ts, "-map", "[a_final]", "-c:a", "aac",
   "-b:a", "192k", outPath]

/-- Spec-side description of the accumulated mix labels: the concatenation
`[a0][a1]...` over the enumerated active tracks. -/
def labelsConcat : List (ℕ × Track) → String
  | [] => ""
  | p :: rest => "[a" ++ toString p.1 ++ "]" ++ labelsConcat rest

/-- The imperative accumulation loop equals its closed description: appending
one labeled volume filter per enumerated track and one `[ai]` label each. -/
theorem buildFilterLoop_eq (l : List Track) :
    ∀ (i : ℕ) (parts : List String) (mix : String),
      buildFilterLoop l i (parts, mix) =
        (parts ++ (List.enumFrom i l).map (fun p => volumeFilter p.1 p.2),
         mix ++ labelsConcat (List.enumFrom i l)) := by
  induction l with
  | nil =>
      intro i parts mix
      simp [buildFilterLoop, labelsConcat, List.enumFrom, String.append_empty]
  | cons t rest ih =>
      intro i parts mix
      rw [buildFilterLoop, ih (i + 1)]
      simp [List.enumFrom, labelsConcat, String.append_assoc]

/-- C3 counterexample: with in-point 2000 ms, the `-ss` trim parameter of the
composed export command is `"00:02.00"` (format `MM:SS.ff`), which is not the
claimed `HH:MM:SS.ff` string `"00:00:02.00"`. -/
theorem C3_counterexample :
    (buildExportCmd "ffmpeg" "in.mp4" "out.mp4" false 2000 8000 [⟨0, 0, true⟩]).get? 3 =
      some "00:02.00" ∧ ("00:02.00" : String) ≠ "00:00:02.00" := by
  constructor
  · decide
  · decide

/-- C3 (amended). Export trim timestamps are formatted as `MM:SS.ff` (no hour
field): for in-point 2000 ms and out-point 8000 ms, the composed export
command carries `-ss 00:02.00` and `-to 00:08.00`. -/
theorem C3_trim_format :
    format_time 2000 = "00:02.00" ∧ format_time 8000 = "00:08.00" ∧
    (buildExportCmd "ffmpeg" "v.mp4" "o.mp4" false 2000 8000 [⟨0, 0, true⟩]).get? 2 =
      some "-ss" ∧
    (buildExportCmd "ffmpeg" "v.mp4" "o.mp4" false 2000 8000 [⟨0, 0, true⟩]).get? 3 =
      some (format_time 2000) ∧
    (buildExportCmd "ffmpeg" "v.mp4" "o.mp4" false 2000 8000 [⟨0, 0, true⟩]).get? 4 =
      some "-to" ∧
    (buildExportCmd "ffmpeg" "v.mp4" "o.mp4" false 2000 8000 [⟨0, 0, true⟩]).get? 5 =
      some (format_time 8000) := by
  refine ⟨by decide, by decide, by decide, by decide, by decide, by decide⟩

/-- C4. Export audio filter-chain composition: the composed filter graph is
one labeled per-track volume filter per active track (inactive tracks
contribute nothing), joined by `;`, followed by the concatenated labels fed to
`amix` over exactly the active-track count, followed by `dynaudnorm` on the
mix.  In particular, with track 1 of 2 deactivated and track 0 at -6 dB, only
track 0 is selected and its gain filter specifies `-6dB`. -/
theorem C4_filter_chain :
    (∀ ts : List Track,
      complexFilter ts =
        String.intercalate ";"
            ((List.enumFrom 0 (activeTracks ts)).map fun p => volumeFilter p.1 p.2) ++
          ";" ++ labelsConcat (List.enumFrom 0 (activeTracks ts)) ++
          "amix=inputs=" ++ toString (activeTracks ts).length ++
          "[outa];[outa]dynaudnorm[a_final]") ∧
    activeTracks [⟨0, -6, true⟩, ⟨1, 0, false⟩] = [⟨0, -6, true⟩] ∧
    complexFilter [⟨0, -6, true⟩, ⟨1, 0, false⟩] =
      "[0:a:0]volume=-6dB[a0];[a0]amix=inputs=1[outa];[outa]dynaudnorm[a_final]" := by
  refine ⟨fun ts => ?_, by decide, by decide⟩
  unfold complexFilter
  rw [buildFilterLoop_eq]
  simp

/-! ## Progress time parsing (`time_str_to_seconds`, src/utils.py lines 24-29,
identical in src/mixer.py lines 34-39; `ExportThread.run.parse_time` in
src/workers.py lines 60-64 is the same computation under a 3-way unpacking)

```
try:
    parts = time_str.split(':')
    return float(parts[0]) * 3600 + float(parts[1]) * 60 + float(parts[2])
except:
    return 0.0
```
`str.split(':')` is modelled by `splitOnChar` (on `""` it yields `[""]`, like
Python).  `float(...)` is modelled by `pyFloat?` for signed finite decimal
literals — the grammar the colon-separated time fields can contain — returning
`none` (the `except` path) on anything else.  The bare `except` makes the
function total with fallback `0.0`. -/

/-- Value of a list of decimal digit characters. -/
def digitsToNat (cs : List Char) : ℕ :=
  cs.foldl (fun n c => n * 10 + (c.toNat - 48)) 0

/-- Python `str.split(sep)` for a single-character separator: every occurrence
splits, adjacent separators and string edges produce empty fields. -/
def splitOnChar (sep : Char) : List Char → List (List Char)
  | [] => [[]]
  | c :: rest =>
      let r := splitOnChar sep rest
      if c = sep then [] :: r
      else
        match r with
        | [] => [[c]]
        | g :: gs => (c :: g) :: gs

/-- Unsigned decimal literal: digits, optionally with a decimal point; at
least one digit overall. -/
def parseUnsigned? (cs : List Char) : Option ℚ :=
  let intPart := cs.takeWhile (·.isDigit)
  let rest := cs.dropWhile (·.isDigit)
  if rest.isEmpty then
    if intPart.isEmpty then none else some (digitsToNat intPart : ℚ)
  else if rest.head? = some '.' && rest.tail.all (·.isDigit)
      && !(intPart.isEmpty && rest.tail.isEmpty) then
    some ((digitsToNat intPart : ℚ) + (digitsToNat rest.tail : ℚ) / 10 ^ rest.tail.length)
  else none

/-- Python `float(...)` on a time field: optional sign then an unsigned
decimal literal; `none` models a raised `ValueError`. -/
def pyFloat? (cs : List Char) : Option ℚ :=
  if cs.head? = some '+' then parseUnsigned? cs.tail
  else if cs.head? = some '-' then (parseUnsigned? cs.tail).map (fun q => -q)
  else parseUnsigned? cs

/-- The value of `float(parts[0])*3600 + float(parts[1])*60 + float(parts[2])`
under the surrounding `try`: `0` as soon as any field fails to parse. -/
def timeOfParts : Option ℚ → Option ℚ → Option ℚ → ℚ
  | some hh, some mm, some ss => hh * 3600 + mm * 60 + ss
  | _, _, _ => 0

/-- `time_str_to_seconds` (src/utils.py lines 24-29). -/
def time_str_to_seconds (s : String) : ℚ :=
  match splitOnChar ':' s.data with
  | p0 :: p1 :: p2 :: _ => timeOfParts (pyFloat? p0) (pyFloat? p1) (pyFloat? p2)
  | _ => 0

theorem timeOfParts_none_left (b c : Option ℚ) : timeOfParts none b c = 0 := rfl

theorem timeOfParts_none_mid (a c : Option ℚ) : timeOfParts a none c = 0 := by
  cases a <;> rfl

theorem timeOfParts_none_right (a b : Option ℚ) : timeOfParts a b none = 0 := by
  cases a <;> cases b <;> rfl

/-- C10. The progress time-string parser is total: for every input it returns
a rational and never fails — when the string has fewer than three
colon-separated fields, or any of the first three fields is not a float
literal, it returns `0.0`; otherwise it returns `h*3600 + m*60 + s`. -/
theorem C10_parser_total (s : String) :
    ((splitOnChar ':' s.data).length < 3 → time_str_to_seconds s = 0) ∧
    (∀ p0 p1 p2 rest, splitOnChar ':' s.data = p0 :: p1 :: p2 :: rest →
      (pyFloat? p0 = none ∨ pyFloat? p1 = none ∨ pyFloat? p2 = none) →
      time_str_to_seconds s = 0) ∧
    (∀ p0 p1 p2 rest hh mm ss, splitOnChar ':' s.data = p0 :: p1 :: p2 :: rest →
      pyFloat? p0 = some hh → pyFloat? p1 = some mm → pyFloat? p2 = some ss →
      time_str_to_seconds s = hh * 3600 + mm * 60 + ss) := by
  have hbody : ∀ p0 p1 p2 rest, splitOnChar ':' s.data = p0 :: p1 :: p2 :: rest →
      time_str_to_seconds s = timeOfParts (pyFloat? p0) (pyFloat? p1) (pyFloat? p2) := by
    intro p0 p1 p2 rest hsplit
    unfold time_str_to_seconds
    rw [hsplit]
  refine ⟨?_, ?_, ?_⟩
  · intro hlen
    rcases hsplit : splitOnChar ':' s.data with _ | ⟨p0, _ | ⟨p1, _ | ⟨p2, rest⟩⟩⟩
    · unfold time_str_to_seconds; rw [hsplit]
    · unfold time_str_to_seconds; rw [hsplit]
    · unfold time_str_to_seconds; rw [hsplit]
    · rw [hsplit] at hlen
      simp only [List.length_cons] at hlen
      omega
  · intro p0 p1 p2 rest hsplit hnone
    rw [hbody p0 p1 p2 rest hsplit]
    rcases hnone with h0 | h1 | h2
    · rw [h0, timeOfParts_none_left]
    · rw [h1, timeOfParts_none_mid]
    · rw [h2, timeOfParts_none_right]
  · intro p0 p1 p2 rest hh mm ss hsplit h0 h1 h2
    rw [hbody p0 p1 p2 rest hsplit, h0, h1, h2]
    rfl

/-- Witness for C10: too few fields (`"1:2"`), a non-numeric field
(`"aa:bb:cc"`), and a well-formed time (`"00:01:30"` → 90 s). -/
theorem C10_parser_total_witness :
    time_str_to_seconds "1:2" = 0 ∧
    time_str_to_seconds "aa:bb:cc" = 0 ∧
    time_str_to_seconds "00:01:30" = 90 := by
  refine ⟨(C10_parser_total "1:2").1 (by decide), ?_, ?_⟩
  · exact (C10_parser_total "aa:bb:cc").2.1 ['a', 'a'] ['b', 'b'] ['c', 'c'] []
      (by decide) (Or.inl (by rfl))
  · have h := (C10_parser_total "00:01:30").2.2
      ['0', '0'] ['0', '1'] ['3', '0'] [] 0 1 30
      (by decide) (by rfl) (by rfl) (by rfl)
    rw [h]
    norm_num

/-! ## Audition headroom mapping
(`AudioTrackWidget.update_realtime_volume`, src/mixer.py lines 365-375, and
the identical active branch of `AudioTrackWidget.update_volume`,
src/main.py lines 267-273)

```
HEADROOM_FACTOR = 0.25
linear_volume = (10 ** (db_val / 20.0)) * HEADROOM_FACTOR
self.audio_output.setVolume(min(1.0, linear_volume))
```
The float computation is modelled over the reals. -/

/-- The linear audition output level set for gain `db` dB. -/
noncomputable def update_realtime_volume (db : ℝ) : ℝ :=
  min 1 ((10 : ℝ) ^ (db / 20) * 0.25)

/-- `10^(3/5) < 4`, since `(10^(3/5))^5 = 10^3 = 1000 < 1024 = 4^5`. -/
theorem rpow_three_fifths_lt_four : (10 : ℝ) ^ ((3 : ℝ) / 5) < 4 := by
  have h0 : (0 : ℝ) ≤ 10 := by norm_num
  have hpow : ((10 : ℝ) ^ ((3 : ℝ) / 5)) ^ (5 : ℕ) = 1000 := by
    rw [← Real.rpow_natCast ((10 : ℝ) ^ ((3 : ℝ) / 5)) 5, ← Real.rpow_mul h0]
    rw [show ((3 : ℝ) / 5 * (5 : ℕ)) = ((3 : ℕ) : ℝ) by push_cast; ring]
    rw [Real.rpow_natCast]
    norm_num
  refine lt_of_pow_lt_pow_left 5 (by norm_num) ?_
  rw [hpow]
  norm_num

/-- C2 counterexample: the claim says `apply_gain(12)` yields linear output
`1.0` (the clamp engaging exactly at +12 dB).  In fact
`min(1, 10^(12/20) * 0.25) = 10^(3/5)/4 < 1` because `10^(3/5) < 4`. -/
theorem C2_counterexample : update_realtime_volume 12 ≠ 1 := by
  have h35 : ((12 : ℝ) / 20) = (3 : ℝ) / 5 := by norm_num
  have hlt : (10 : ℝ) ^ ((12 : ℝ) / 20) * 0.25 < 1 := by
    rw [h35]
    nlinarith [rpow_three_fifths_lt_four]
  unfold update_realtime_volume
  rw [min_eq_right hlt.le]
  exact ne_of_lt hlt

/-- C2 (amended). Headroom mapping: for every gain `db`, the linear output is
`min(1, 10^(db/20) * 0.25)`; `apply_gain(0)` yields `0.25`; `apply_gain(12)`
yields `10^(3/5) * 0.25 ≈ 0.9953`, still strictly below `1.0` (the ceiling is
reached slightly above +12 dB, at `20*log10 4 ≈ 12.04`); `apply_gain(20)`
yields `1.0` (clamped). -/
theorem C2_headroom_mapping :
    (∀ db : ℝ, update_realtime_volume db = min 1 ((10 : ℝ) ^ (db / 20) * 0.25)) ∧
    update_realtime_volume 0 = 0.25 ∧
    update_realtime_volume 12 = (10 : ℝ) ^ ((3 : ℝ) / 5) * 0.25 ∧
    update_realtime_volume 12 < 1 ∧
    update_realtime_volume 20 = 1 := by
  have h35 : ((12 : ℝ) / 20) = (3 : ℝ) / 5 := by norm_num
  have hlt : (10 : ℝ) ^ ((3 : ℝ) / 5) * 0.25 < 1 := by
    nlinarith [rpow_three_fifths_lt_four]
  refine ⟨fun db => rfl, ?_, ?_, ?_, ?_⟩
  · unfold update_realtime_volume
    rw [zero_div, Real.rpow_zero]
    norm_num
  · unfold update_realtime_volume
    rw [h35, min_eq_right hlt.le]
  · unfold update_realtime_volume
    rw [h35, min_eq_right hlt.le]
    exact hlt
  · unfold update_realtime_volume
    rw [show ((20 : ℝ) / 20) = (1 : ℝ) by norm_num, Real.rpow_one]
    norm_num

end AudioMerge
